import Mathlib

/-!
Shallow embedding of `src/CannonWarfare/Sources/CannonBall.cpp`
(repository Vynokris/CannonWarfare2).

The cannonball is a single entity updated once per frame.  Its float
arithmetic is embedded over `ℚ` (exact arithmetic); the only genuinely
irrational quantity, the Euclidean norm `GetLength()`, appears in the code
solely in comparisons against `10` and in `SetLength`, both of which are
characterized exactly over `ℚ` (squared-norm comparisons, scalar rescaling)
with bridging lemmas over `ℝ` stated below.

External collaborators whose sources are not under `src/` (the `Maths`
library, `Arithmetic.h`, `ParticleManager.h`, `CannonBall.h` member
defaults, `PhysicsConstants.h`) are modelled from the spec where the
claims rely on them; each such definition carries a doc comment saying so.
The physical constants `GRAVITY`, `PIXEL_SCALE`, `PI`, `AIR_DENSITY` and
`SPHERE_DRAG_COEFF` from `PhysicsConstants.h` are kept symbolic in a
`Consts` record, so every theorem is parametric in them.
-/

namespace CannonWarfare

/-- 2D float vector of the `Maths` library, embedded over `ℚ`. -/
structure Vec2 where
  x : ℚ
  y : ℚ
deriving DecidableEq, Repr

def Vec2.add (a b : Vec2) : Vec2 := ⟨a.x + b.x, a.y + b.y⟩

def Vec2.neg (a : Vec2) : Vec2 := ⟨-a.x, -a.y⟩

def Vec2.smul (k : ℚ) (a : Vec2) : Vec2 := ⟨k * a.x, k * a.y⟩

/-- Squared Euclidean norm.  `GetLength()` of the source is
`Real.sqrt` of this (see the bridging lemmas below). -/
def Vec2.sqLen (a : Vec2) : ℚ := a.x * a.x + a.y * a.y

def Vec2.zero : Vec2 := ⟨0, 0⟩

/-- Modelled from the spec: `Maths::clamp` (math collaborator, not under
src/) — clamp a value into `[lo, hi]`. -/
def clampQ (x lo hi : ℚ) : ℚ := min (max x lo) hi

/-- Truncation of a rational toward zero, the rounding C++ uses when
converting a floating-point value to an integer type. -/
def ratTrunc (x : ℚ) : ℤ := if 0 ≤ x then ⌊x⌋ else -⌊-x⌋

/-- C++ conversion of a float to `unsigned char`: truncation toward zero;
when the truncated value is not representable in `[0, 255]` the conversion
is undefined behavior, modelled as `none`. -/
def ucharCast (x : ℚ) : Option ℕ :=
  if 0 ≤ ratTrunc x ∧ ratTrunc x ≤ 255 then some (ratTrunc x).toNat else none

/-- Modelled from the spec: `Maths::LineIntersection` (math collaborator,
not under src/) — "given two points and two direction vectors, return the
point where the two infinite rays intersect"; parallel rays are not
special-cased by the source (here the rational division by the zero
determinant yields 0). -/
def lineIntersection (p1 d1 p2 d2 : Vec2) : Vec2 :=
  Vec2.add p1 (Vec2.smul (((p2.x - p1.x) * d2.y - (p2.y - p1.y) * d2.x) /
    (d1.x * d2.y - d1.y * d2.x)) d1)

/-- Particle shape selector; only `POLYGON` occurs in this translation
unit. -/
inductive ParticleShape
  | polygon
deriving DecidableEq, Repr

/-- The raylib colors used by this translation unit, kept abstract. -/
inductive RColor
  | orange
  | white
deriving DecidableEq, Repr

/-- Modelled from the spec: field names of the spawn-parameter record
(`ParticleManager.h` is not under src/); the spec lists them as shape,
origin, angular range, speed range, two unused/reserved range pairs, size
range, lifetime range, color — in the order the braces of the source
list the values. -/
structure SpawnerParticleParams where
  shape : ParticleShape
  position : Vec2
  angleMin : ℚ
  angleMax : ℚ
  speedMin : ℚ
  speedMax : ℚ
  reservedAMin : ℚ
  reservedAMax : ℚ
  reservedBMin : ℚ
  reservedBMax : ℚ
  sizeMin : ℚ
  sizeMax : ℚ
  lifetimeMin : ℚ
  lifetimeMax : ℚ
  color : RColor
deriving DecidableEq, Repr

/-- One `particleManager.CreateSpawner(count, duration, params[, transform])`
call, recorded as data (the emitter is an external collaborator). -/
structure SpawnRequest where
  count : ℕ
  duration : ℚ
  params : SpawnerParticleParams
  attached : Bool
deriving DecidableEq, Repr

/-- The constants of `PhysicsConstants.h` and raylib (not under src/),
kept symbolic. `piQ` stands for the float constant `PI`. -/
structure Consts where
  gravity : ℚ
  pixelScale : ℚ
  piQ : ℚ
  airDensity : ℚ
  sphereDragCoeff : ℚ

/-- The kinematic transform of the `Maths` collaborator (rendering-only
flag `rotateForwards` omitted). -/
structure Transform where
  position : Vec2
  velocity : Vec2
  acceleration : Vec2
deriving DecidableEq, Repr

/-- Modelled from the spec: `Transform::Update` (math collaborator, not
under src/) — "integrate transform via semi-implicit Euler (velocity +=
acceleration*dt; position += velocity*dt)". -/
def Transform.update (dt : ℚ) (t : Transform) : Transform :=
  { t with
    velocity := Vec2.add t.velocity (Vec2.smul dt t.acceleration)
    position := Vec2.add t.position
      (Vec2.smul dt (Vec2.add t.velocity (Vec2.smul dt t.acceleration))) }

/-- The CannonBall entity state.  `radius`, `elasticity` and
`destroyDuration` are the header-supplied per-ball configuration
(`CannonBall.h` is not under src/), carried as fields that no operation
modifies.  `colorA` is the alpha channel of `color` (the only channel the
claims touch), undefined conversions modelled as `none`. -/
structure CannonBall where
  transform : Transform
  radius : ℚ
  elasticity : ℚ
  groundHeight : ℚ
  landed : Bool
  startPos : Vec2
  startV : Vec2
  endPos : Vec2
  endV : Vec2
  controlPoint : Vec2
  startTime : ℚ
  airTime : ℚ
  trajectoryAlpha : ℚ
  showTrajectory : Bool
  destroyTimer : ℚ
  destroyDuration : ℚ
  colorA : Option ℕ
deriving DecidableEq, Repr

/-- The ground contact threshold `groundHeight - radius * PIXEL_SCALE`
(y grows downward: larger y is lower on screen). -/
def threshold (c : Consts) (s : CannonBall) : ℚ :=
  s.groundHeight - s.radius * c.pixelScale

/-- `CannonBall::CannonBall`.  `now` is the construction-time clock
reading (`std::chrono::system_clock::now()`, modelled in seconds).
Modelled from the spec: the header defaults (not under src/) — `landed`
starts false ("false until the frame where position first reaches the
contact threshold"), `trajectoryAlpha` starts at 0 (a 0..1 fade driven
toward 1 only when display is enabled), and the destroy countdown is
inactive until `Destroy()` is called, so `destroyTimer` starts negative;
the snapshot fields start zeroed. -/
def create (c : Consts) (startPosition startVelocity : Vec2)
    (radius elasticity destroyDuration groundHeight now : ℚ) : CannonBall :=
  { transform :=
      { position := startPosition
        velocity := startVelocity
        acceleration := ⟨0, c.gravity⟩ }
    radius := radius
    elasticity := elasticity
    groundHeight := groundHeight
    landed := false
    startPos := startPosition
    startV := startVelocity
    endPos := Vec2.zero
    endV := Vec2.zero
    controlPoint := Vec2.zero
    startTime := now
    airTime := 0
    trajectoryAlpha := 0
    showTrajectory := false
    destroyTimer := -1
    destroyDuration := destroyDuration
    colorA := some 255 }

/-- The construction-time particle burst (muzzle smoke): polygon shape,
attached to the transform, duration = the caller-supplied predicted air
time, orange. -/
def constructionSpawn (c : Consts) (startPosition : Vec2)
    (predictedAirTime : ℚ) : SpawnRequest :=
  { count := 1
    duration := predictedAirTime
    attached := true
    params :=
      { shape := ParticleShape.polygon
        position := startPosition
        angleMin := -c.piQ
        angleMax := 0
        speedMin := 5
        speedMax := 20
        reservedAMin := 0
        reservedAMax := 0
        reservedBMin := 0
        reservedBMax := 0
        sizeMin := 20
        sizeMax := 35
        lifetimeMin := 1/20
        lifetimeMax := 1/5
        color := RColor.orange } }

/-- `CannonBall::UpdateTrajectory`.  `now` is the current clock reading;
the chrono millisecond count divided by 1000 is modelled as the exact
elapsed time in seconds. -/
def updateTrajectory (now : ℚ) (s : CannonBall) : CannonBall :=
  { s with
    airTime := now - s.startTime
    endPos := s.transform.position
    endV := s.transform.velocity
    controlPoint := lineIntersection s.startPos s.startV
      s.transform.position (Vec2.neg s.transform.velocity) }

/-- The trajectory-alpha fade at the top of `CannonBall::Update`
(lines 55-56). -/
def fadeStep (dt : ℚ) (s : CannonBall) : CannonBall :=
  if s.showTrajectory ∧ s.trajectoryAlpha < 1 then
    { s with trajectoryAlpha := clampQ (s.trajectoryAlpha + dt) 0 1 }
  else if ¬s.showTrajectory ∧ 0 < s.trajectoryAlpha then
    { s with trajectoryAlpha := clampQ (s.trajectoryAlpha - dt) 0 1 }
  else s

/-- The bounce branch (lines 77-82): clamp y just above the contact
plane, flip the vertical velocity, then
`velocity.SetLength(velocity.GetLength() * elasticity)`.  `SetLength`
rescales preserving direction; applied to the reflected vector — whose
norm equals the pre-flip norm — the composite is exactly the scalar
multiple by `elasticity` (lemma `setLength_after_flip_eq_smul` below). -/
def bounceStep (c : Consts) (s : CannonBall) : CannonBall :=
  { s with
    transform :=
      { s.transform with
        position := ⟨s.transform.position.x, threshold c s - 1/100⟩
        velocity := Vec2.smul s.elasticity
          ⟨s.transform.velocity.x, -s.transform.velocity.y⟩ } }

/-- The rest branch (lines 85-90): pin to the contact plane and zero the
motion. -/
def restStep (c : Consts) (s : CannonBall) : CannonBall :=
  { s with
    transform :=
      { s.transform with
        position := ⟨s.transform.position.x, threshold c s⟩
        velocity := Vec2.zero
        acceleration := Vec2.zero } }

/-- The whole under-ground branch (lines 67-90): mark landing and freeze
the snapshot on first contact, then bounce or rest.  The source condition
`velocity.GetLength() > 10` is embedded as `100 < sqLen velocity`
(equivalent for the nonnegative norm, lemma `ten_lt_sqrt_iff` below). -/
def groundedStep (c : Consts) (now : ℚ) (s : CannonBall) : CannonBall :=
  let s1 := if s.landed then s else { updateTrajectory now s with landed := true }
  if 100 < Vec2.sqLen s1.transform.velocity then bounceStep c s1 else restStep c s1

/-- The landing particle burst (lines 92-104), built from the post-branch
state: polygon shape, origin offset `(0, radius*PIXEL_SCALE*1.5)` below
the position, fixed 0.1 s duration, white. -/
def landingSpawn (c : Consts) (s : CannonBall) : SpawnRequest :=
  { count := 1
    duration := 1/10
    attached := false
    params :=
      { shape := ParticleShape.polygon
        position := Vec2.add s.transform.position ⟨0, s.radius * c.pixelScale * (3/2)⟩
        angleMin := -c.piQ / 4
        angleMax := c.piQ + c.piQ / 2
        speedMin := 250
        speedMax := 500
        reservedAMin := 0
        reservedAMax := 0
        reservedBMin := 0
        reservedBMax := 0
        sizeMin := 20
        sizeMax := 35
        lifetimeMin := 1/20
        lifetimeMax := 1/5
        color := RColor.white } }

/-- The airborne branch (lines 59-64): integrate, and while not yet
landed keep recomputing the trajectory snapshot. -/
def airborneStep (dt now : ℚ) (s : CannonBall) : CannonBall :=
  let s' := { s with transform := Transform.update dt s.transform }
  if s'.landed then s' else updateTrajectory now s'

/-- The destroy-timer block (lines 108-112). -/
def destroyStep (dt : ℚ) (s : CannonBall) : CannonBall :=
  if 0 ≤ s.destroyTimer ∧ s.destroyTimer ≤ s.destroyDuration then
    { s with
      destroyTimer := s.destroyTimer - dt
      colorA := ucharCast (255 * ((s.destroyTimer - dt) / s.destroyDuration)) }
  else s

/-- Result of one `Update` call: the new state plus the particle spawn
requests issued to the emitter during the call. -/
structure UpdateOut where
  ball : CannonBall
  spawns : List SpawnRequest
deriving DecidableEq, Repr

/-- `CannonBall::Update(deltaTime)`.  `now` is the clock reading taken by
`UpdateTrajectory` when it runs this frame.  Note the branch structure of
lines 59 and 67: strictly above the threshold integrates, strictly below
runs the landing logic, and at exactly the threshold neither branch runs. -/
def update (c : Consts) (dt now : ℚ) (s : CannonBall) : UpdateOut :=
  if (fadeStep dt s).transform.position.y < threshold c (fadeStep dt s) then
    ⟨destroyStep dt (airborneStep dt now (fadeStep dt s)), []⟩
  else if threshold c (fadeStep dt s) < (fadeStep dt s).transform.position.y then
    ⟨destroyStep dt (groundedStep c now (fadeStep dt s)),
      [landingSpawn c (groundedStep c now (fadeStep dt s))]⟩
  else ⟨destroyStep dt (fadeStep dt s), []⟩

/-- `CannonBall::Destroy`: start the destroy timer. -/
def destroy (s : CannonBall) : CannonBall :=
  { s with destroyTimer := s.destroyDuration }

/-- One host frame: the host may set the public `showTrajectory` member,
then calls `Update(dt)` with the clock at `now`. -/
structure Frame where
  dt : ℚ
  now : ℚ
  showTraj : Bool
deriving DecidableEq, Repr

def step (c : Consts) (s : CannonBall) (f : Frame) : CannonBall :=
  (update c f.dt f.now { s with showTrajectory := f.showTraj }).ball

/-- A sequence of host frames. -/
def runUpdates (c : Consts) (s : CannonBall) (fs : List Frame) : CannonBall :=
  fs.foldl (step c) s

/-- `CannonBall::ComputeDrag` (lines 37-41): `(velocity *
velocity.GetLength()) * -(0.5 * AIR_DENSITY * SPHERE_DRAG_COEFF * PI *
sqpow(radius))`.  `len` stands for `transform.velocity.GetLength()`,
characterized in the theorems by `0 ≤ len` and `len * len = sqLen
velocity`.  `sqpow` (`Arithmetic.h`, not under src/) is squaring —
modelled from the spec formula "radius²".  The function is `const`: it
reads the state and returns a vector, mutating nothing. -/
def computeDrag (c : Consts) (s : CannonBall) (len : ℚ) : Vec2 :=
  Vec2.smul (-(1/2 * c.airDensity * c.sphereDragCoeff * c.piQ * (s.radius * s.radius)))
    (Vec2.smul len s.transform.velocity)

/-! ### Bridging lemmas: the Euclidean norm of the source vs the squared
norm of the embedding -/

lemma sqLen_nonneg (v : Vec2) : 0 ≤ v.sqLen := by
  unfold Vec2.sqLen
  have hx := mul_self_nonneg v.x
  have hy := mul_self_nonneg v.y
  linarith

/-- The source condition `velocity.GetLength() > 10` (line 77) holds
exactly when the squared norm exceeds 100: this justifies the branch
condition of `groundedStep`. -/
lemma ten_lt_sqrt_iff (q : ℚ) : 10 < Real.sqrt (q : ℝ) ↔ 100 < q := by
  rw [Real.lt_sqrt (by norm_num : (0:ℝ) ≤ 10)]
  constructor
  · intro h
    have h' : (100:ℝ) < (q:ℝ) := by nlinarith
    exact_mod_cast h'
  · intro h
    have h' : (100:ℝ) < (q:ℝ) := by exact_mod_cast h
    nlinarith

/-- Negation of the previous bridge, for the rest branch. -/
lemma sqrt_le_ten_iff (q : ℚ) : Real.sqrt (q : ℝ) ≤ 10 ↔ q ≤ 100 := by
  rw [Real.sqrt_le_iff]
  constructor
  · intro h
    have h' : (q:ℝ) ≤ 100 := by nlinarith [h.2]
    exact_mod_cast h'
  · intro h
    refine ⟨by norm_num, ?_⟩
    have h' : (q:ℝ) ≤ 100 := by exact_mod_cast h
    nlinarith

/-- Justifies the embedding of the bounce (lines 80-81): rescaling a
nonzero vector `w` to length `|w| * e` — which is what
`SetLength(GetLength() * elasticity)` does after the sign flip, since the
flip preserves the norm — multiplies each component by `e`. -/
lemma setLength_after_flip_eq_smul (wx wy e : ℝ) (h : wx * wx + wy * wy ≠ 0) :
    (Real.sqrt (wx * wx + wy * wy) * e / Real.sqrt (wx * wx + wy * wy)) * wx = e * wx ∧
    (Real.sqrt (wx * wx + wy * wy) * e / Real.sqrt (wx * wx + wy * wy)) * wy = e * wy := by
  have hpos : 0 < wx * wx + wy * wy := by
    have h1 := mul_self_nonneg wx
    have h2 := mul_self_nonneg wy
    rcases lt_or_eq_of_le (by linarith : (0:ℝ) ≤ wx * wx + wy * wy) with hp | hp
    · exact hp
    · exact absurd hp.symm h
  have hL : Real.sqrt (wx * wx + wy * wy) ≠ 0 := by
    rw [Real.sqrt_ne_zero']
    exact hpos
  constructor <;> rw [mul_comm (Real.sqrt (wx * wx + wy * wy)) e, mul_div_assoc,
    div_self hL, mul_one]

/-! ### Field-preservation lemmas for the phases of `Update` -/

@[simp] lemma Transform.update_acceleration (dt : ℚ) (t : Transform) :
    (Transform.update dt t).acceleration = t.acceleration := rfl

@[simp] lemma fadeStep_transform (dt : ℚ) (s : CannonBall) :
    (fadeStep dt s).transform = s.transform := by
  unfold fadeStep; split_ifs <;> rfl

@[simp] lemma fadeStep_radius (dt : ℚ) (s : CannonBall) :
    (fadeStep dt s).radius = s.radius := by
  unfold fadeStep; split_ifs <;> rfl

@[simp] lemma fadeStep_groundHeight (dt : ℚ) (s : CannonBall) :
    (fadeStep dt s).groundHeight = s.groundHeight := by
  unfold fadeStep; split_ifs <;> rfl

@[simp] lemma fadeStep_elasticity (dt : ℚ) (s : CannonBall) :
    (fadeStep dt s).elasticity = s.elasticity := by
  unfold fadeStep; split_ifs <;> rfl

@[simp] lemma fadeStep_landed (dt : ℚ) (s : CannonBall) :
    (fadeStep dt s).landed = s.landed := by
  unfold fadeStep; split_ifs <;> rfl

@[simp] lemma fadeStep_startPos (dt : ℚ) (s : CannonBall) :
    (fadeStep dt s).startPos = s.startPos := by
  unfold fadeStep; split_ifs <;> rfl

@[simp] lemma fadeStep_startV (dt : ℚ) (s : CannonBall) :
    (fadeStep dt s).startV = s.startV := by
  unfold fadeStep; split_ifs <;> rfl

@[simp] lemma fadeStep_endPos (dt : ℚ) (s : CannonBall) :
    (fadeStep dt s).endPos = s.endPos := by
  unfold fadeStep; split_ifs <;> rfl

@[simp] lemma fadeStep_endV (dt : ℚ) (s : CannonBall) :
    (fadeStep dt s).endV = s.endV := by
  unfold fadeStep; split_ifs <;> rfl

@[simp] lemma fadeStep_controlPoint (dt : ℚ) (s : CannonBall) :
    (fadeStep dt s).controlPoint = s.controlPoint := by
  unfold fadeStep; split_ifs <;> rfl

@[simp] lemma fadeStep_startTime (dt : ℚ) (s : CannonBall) :
    (fadeStep dt s).startTime = s.startTime := by
  unfold fadeStep; split_ifs <;> rfl

@[simp] lemma fadeStep_airTime (dt : ℚ) (s : CannonBall) :
    (fadeStep dt s).airTime = s.airTime := by
  unfold fadeStep; split_ifs <;> rfl

@[simp] lemma fadeStep_destroyTimer (dt : ℚ) (s : CannonBall) :
    (fadeStep dt s).destroyTimer = s.destroyTimer := by
  unfold fadeStep; split_ifs <;> rfl

@[simp] lemma fadeStep_destroyDuration (dt : ℚ) (s : CannonBall) :
    (fadeStep dt s).destroyDuration = s.destroyDuration := by
  unfold fadeStep; split_ifs <;> rfl

@[simp] lemma fadeStep_colorA (dt : ℚ) (s : CannonBall) :
    (fadeStep dt s).colorA = s.colorA := by
  unfold fadeStep; split_ifs <;> rfl

@[simp] lemma fadeStep_showTrajectory (dt : ℚ) (s : CannonBall) :
    (fadeStep dt s).showTrajectory = s.showTrajectory := by
  unfold fadeStep; split_ifs <;> rfl

@[simp] lemma threshold_fadeStep (c : Consts) (dt : ℚ) (s : CannonBall) :
    threshold c (fadeStep dt s) = threshold c s := by
  unfold threshold; rw [fadeStep_radius, fadeStep_groundHeight]

@[simp] lemma destroyStep_transform (dt : ℚ) (s : CannonBall) :
    (destroyStep dt s).transform = s.transform := by
  unfold destroyStep; split_ifs <;> rfl

@[simp] lemma destroyStep_landed (dt : ℚ) (s : CannonBall) :
    (destroyStep dt s).landed = s.landed := by
  unfold destroyStep; split_ifs <;> rfl

@[simp] lemma destroyStep_radius (dt : ℚ) (s : CannonBall) :
    (destroyStep dt s).radius = s.radius := by
  unfold destroyStep; split_ifs <;> rfl

@[simp] lemma destroyStep_groundHeight (dt : ℚ) (s : CannonBall) :
    (destroyStep dt s).groundHeight = s.groundHeight := by
  unfold destroyStep; split_ifs <;> rfl

@[simp] lemma destroyStep_elasticity (dt : ℚ) (s : CannonBall) :
    (destroyStep dt s).elasticity = s.elasticity := by
  unfold destroyStep; split_ifs <;> rfl

@[simp] lemma destroyStep_startPos (dt : ℚ) (s : CannonBall) :
    (destroyStep dt s).startPos = s.startPos := by
  unfold destroyStep; split_ifs <;> rfl

@[simp] lemma destroyStep_startV (dt : ℚ) (s : CannonBall) :
    (destroyStep dt s).startV = s.startV := by
  unfold destroyStep; split_ifs <;> rfl

@[simp] lemma destroyStep_endPos (dt : ℚ) (s : CannonBall) :
    (destroyStep dt s).endPos = s.endPos := by
  unfold destroyStep; split_ifs <;> rfl

@[simp] lemma destroyStep_endV (dt : ℚ) (s : CannonBall) :
    (destroyStep dt s).endV = s.endV := by
  unfold destroyStep; split_ifs <;> rfl

@[simp] lemma destroyStep_controlPoint (dt : ℚ) (s : CannonBall) :
    (destroyStep dt s).controlPoint = s.controlPoint := by
  unfold destroyStep; split_ifs <;> rfl

@[simp] lemma destroyStep_startTime (dt : ℚ) (s : CannonBall) :
    (destroyStep dt s).startTime = s.startTime := by
  unfold destroyStep; split_ifs <;> rfl

@[simp] lemma destroyStep_airTime (dt : ℚ) (s : CannonBall) :
    (destroyStep dt s).airTime = s.airTime := by
  unfold destroyStep; split_ifs <;> rfl

@[simp] lemma destroyStep_trajectoryAlpha (dt : ℚ) (s : CannonBall) :
    (destroyStep dt s).trajectoryAlpha = s.trajectoryAlpha := by
  unfold destroyStep; split_ifs <;> rfl

@[simp] lemma destroyStep_showTrajectory (dt : ℚ) (s : CannonBall) :
    (destroyStep dt s).showTrajectory = s.showTrajectory := by
  unfold destroyStep; split_ifs <;> rfl

@[simp] lemma destroyStep_destroyDuration (dt : ℚ) (s : CannonBall) :
    (destroyStep dt s).destroyDuration = s.destroyDuration := by
  unfold destroyStep; split_ifs <;> rfl

@[simp] lemma updateTrajectory_transform (now : ℚ) (s : CannonBall) :
    (updateTrajectory now s).transform = s.transform := rfl

@[simp] lemma updateTrajectory_landed (now : ℚ) (s : CannonBall) :
    (updateTrajectory now s).landed = s.landed := rfl

@[simp] lemma updateTrajectory_radius (now : ℚ) (s : CannonBall) :
    (updateTrajectory now s).radius = s.radius := rfl

@[simp] lemma updateTrajectory_groundHeight (now : ℚ) (s : CannonBall) :
    (updateTrajectory now s).groundHeight = s.groundHeight := rfl

@[simp] lemma updateTrajectory_elasticity (now : ℚ) (s : CannonBall) :
    (updateTrajectory now s).elasticity = s.elasticity := rfl

@[simp] lemma updateTrajectory_trajectoryAlpha (now : ℚ) (s : CannonBall) :
    (updateTrajectory now s).trajectoryAlpha = s.trajectoryAlpha := rfl

@[simp] lemma updateTrajectory_destroyTimer (now : ℚ) (s : CannonBall) :
    (updateTrajectory now s).destroyTimer = s.destroyTimer := rfl

@[simp] lemma updateTrajectory_destroyDuration (now : ℚ) (s : CannonBall) :
    (updateTrajectory now s).destroyDuration = s.destroyDuration := rfl

@[simp] lemma updateTrajectory_colorA (now : ℚ) (s : CannonBall) :
    (updateTrajectory now s).colorA = s.colorA := rfl

@[simp] lemma updateTrajectory_startTime (now : ℚ) (s : CannonBall) :
    (updateTrajectory now s).startTime = s.startTime := rfl

@[simp] lemma updateTrajectory_startPos (now : ℚ) (s : CannonBall) :
    (updateTrajectory now s).startPos = s.startPos := rfl

@[simp] lemma updateTrajectory_startV (now : ℚ) (s : CannonBall) :
    (updateTrajectory now s).startV = s.startV := rfl

@[simp] lemma bounceStep_acceleration (c : Consts) (s : CannonBall) :
    (bounceStep c s).transform.acceleration = s.transform.acceleration := rfl

@[simp] lemma restStep_acceleration (c : Consts) (s : CannonBall) :
    (restStep c s).transform.acceleration = Vec2.zero := rfl

@[simp] lemma bounceStep_landed (c : Consts) (s : CannonBall) :
    (bounceStep c s).landed = s.landed := rfl

@[simp] lemma restStep_landed (c : Consts) (s : CannonBall) :
    (restStep c s).landed = s.landed := rfl

/-- The fields of `groundedStep` that neither the snapshot freeze nor the
bounce/rest branch touches. -/
@[simp] lemma groundedStep_destroyTimer (c : Consts) (now : ℚ) (s : CannonBall) :
    (groundedStep c now s).destroyTimer = s.destroyTimer := by
  simp only [groundedStep, bounceStep, restStep, updateTrajectory]
  split_ifs <;> rfl

@[simp] lemma groundedStep_destroyDuration (c : Consts) (now : ℚ) (s : CannonBall) :
    (groundedStep c now s).destroyDuration = s.destroyDuration := by
  simp only [groundedStep, bounceStep, restStep, updateTrajectory]
  split_ifs <;> rfl

@[simp] lemma groundedStep_colorA (c : Consts) (now : ℚ) (s : CannonBall) :
    (groundedStep c now s).colorA = s.colorA := by
  simp only [groundedStep, bounceStep, restStep, updateTrajectory]
  split_ifs <;> rfl

@[simp] lemma groundedStep_trajectoryAlpha (c : Consts) (now : ℚ) (s : CannonBall) :
    (groundedStep c now s).trajectoryAlpha = s.trajectoryAlpha := by
  simp only [groundedStep, bounceStep, restStep, updateTrajectory]
  split_ifs <;> rfl

@[simp] lemma groundedStep_radius (c : Consts) (now : ℚ) (s : CannonBall) :
    (groundedStep c now s).radius = s.radius := by
  simp only [groundedStep, bounceStep, restStep, updateTrajectory]
  split_ifs <;> rfl

@[simp] lemma groundedStep_groundHeight (c : Consts) (now : ℚ) (s : CannonBall) :
    (groundedStep c now s).groundHeight = s.groundHeight := by
  simp only [groundedStep, bounceStep, restStep, updateTrajectory]
  split_ifs <;> rfl

@[simp] lemma groundedStep_elasticity (c : Consts) (now : ℚ) (s : CannonBall) :
    (groundedStep c now s).elasticity = s.elasticity := by
  simp only [groundedStep, bounceStep, restStep, updateTrajectory]
  split_ifs <;> rfl

/-- Whether or not the ball had already landed, after the grounded branch
the `landed` flag is true (lines 70-74 set it on first contact; the
bounce/rest branches never clear it). -/
@[simp] lemma groundedStep_landed (c : Consts) (now : ℚ) (s : CannonBall) :
    (groundedStep c now s).landed = true := by
  simp only [groundedStep, bounceStep, restStep, updateTrajectory]
  split_ifs <;> simp_all

/-- On first contact the grounded branch freezes the snapshot first and
then branches on the (unchanged) velocity. -/
lemma groundedStep_eq_of_not_landed (c : Consts) (now : ℚ) (s : CannonBall)
    (h : s.landed = false) :
    groundedStep c now s =
      if 100 < Vec2.sqLen s.transform.velocity then
        bounceStep c { updateTrajectory now s with landed := true }
      else restStep c { updateTrajectory now s with landed := true } := by
  simp only [groundedStep, h, Bool.false_eq_true, if_false, updateTrajectory]

/-- On later grounded frames the snapshot is left alone and only the
bounce/rest branch runs. -/
lemma groundedStep_eq_of_landed (c : Consts) (now : ℚ) (s : CannonBall)
    (h : s.landed = true) :
    groundedStep c now s =
      if 100 < Vec2.sqLen s.transform.velocity then bounceStep c s
      else restStep c s := by
  simp only [groundedStep, h, if_true]

@[simp] lemma airborneStep_landed (dt now : ℚ) (s : CannonBall) :
    (airborneStep dt now s).landed = s.landed := by
  simp only [airborneStep, updateTrajectory]
  split_ifs <;> rfl

@[simp] lemma airborneStep_destroyTimer (dt now : ℚ) (s : CannonBall) :
    (airborneStep dt now s).destroyTimer = s.destroyTimer := by
  simp only [airborneStep, updateTrajectory]
  split_ifs <;> rfl

@[simp] lemma airborneStep_destroyDuration (dt now : ℚ) (s : CannonBall) :
    (airborneStep dt now s).destroyDuration = s.destroyDuration := by
  simp only [airborneStep, updateTrajectory]
  split_ifs <;> rfl

@[simp] lemma airborneStep_colorA (dt now : ℚ) (s : CannonBall) :
    (airborneStep dt now s).colorA = s.colorA := by
  simp only [airborneStep, updateTrajectory]
  split_ifs <;> rfl

@[simp] lemma airborneStep_trajectoryAlpha (dt now : ℚ) (s : CannonBall) :
    (airborneStep dt now s).trajectoryAlpha = s.trajectoryAlpha := by
  simp only [airborneStep, updateTrajectory]
  split_ifs <;> rfl

@[simp] lemma airborneStep_radius (dt now : ℚ) (s : CannonBall) :
    (airborneStep dt now s).radius = s.radius := by
  simp only [airborneStep, updateTrajectory]
  split_ifs <;> rfl

@[simp] lemma airborneStep_groundHeight (dt now : ℚ) (s : CannonBall) :
    (airborneStep dt now s).groundHeight = s.groundHeight := by
  simp only [airborneStep, updateTrajectory]
  split_ifs <;> rfl

@[simp] lemma airborneStep_elasticity (dt now : ℚ) (s : CannonBall) :
    (airborneStep dt now s).elasticity = s.elasticity := by
  simp only [airborneStep, updateTrajectory]
  split_ifs <;> rfl

@[simp] lemma airborneStep_acceleration (dt now : ℚ) (s : CannonBall) :
    (airborneStep dt now s).transform.acceleration = s.transform.acceleration := by
  simp only [airborneStep, updateTrajectory]
  split_ifs <;> rfl

/-- While already landed (a post-bounce airborne frame), the airborne
branch only integrates: the snapshot is not recomputed. -/
lemma airborneStep_eq_of_landed (dt now : ℚ) (s : CannonBall)
    (h : s.landed = true) :
    airborneStep dt now s = { s with transform := Transform.update dt s.transform } := by
  simp only [airborneStep, h, if_true]

/-! ### Branch characterization of one `Update` call -/

/-- Strictly above the contact threshold (line 59): integrate, keep the
snapshot fresh while not landed, emit nothing. -/
lemma update_eq_airborne (c : Consts) (dt now : ℚ) (s : CannonBall)
    (h : s.transform.position.y < threshold c s) :
    update c dt now s = ⟨destroyStep dt (airborneStep dt now (fadeStep dt s)), []⟩ := by
  unfold update
  simp only [fadeStep_transform, threshold_fadeStep]
  rw [if_pos h]

/-- Strictly below the contact threshold (line 67): landing logic plus
exactly one landing burst. -/
lemma update_eq_grounded (c : Consts) (dt now : ℚ) (s : CannonBall)
    (h : threshold c s < s.transform.position.y) :
    update c dt now s =
      ⟨destroyStep dt (groundedStep c now (fadeStep dt s)),
        [landingSpawn c (groundedStep c now (fadeStep dt s))]⟩ := by
  unfold update
  simp only [fadeStep_transform, threshold_fadeStep]
  rw [if_neg (not_lt.2 h.le), if_pos h]

/-- At exactly the contact threshold neither the airborne nor the
grounded branch runs: only the fades and the destroy timer advance. -/
lemma update_eq_boundary (c : Consts) (dt now : ℚ) (s : CannonBall)
    (h : s.transform.position.y = threshold c s) :
    update c dt now s = ⟨destroyStep dt (fadeStep dt s), []⟩ := by
  unfold update
  simp only [fadeStep_transform, threshold_fadeStep]
  rw [if_neg (by rw [h]; exact lt_irrefl _), if_neg (by rw [h]; exact lt_irrefl _)]

/-- The transform produced by the grounded branch when the ball still has
speed (the bounce), independent of whether this is the first contact. -/
lemma groundedStep_transform_bounce (c : Consts) (now : ℚ) (s : CannonBall)
    (h : 100 < Vec2.sqLen s.transform.velocity) :
    (groundedStep c now s).transform =
      { s.transform with
        position := ⟨s.transform.position.x, threshold c s - 1/100⟩
        velocity := Vec2.smul s.elasticity
          ⟨s.transform.velocity.x, -s.transform.velocity.y⟩ } := by
  rcases Bool.eq_false_or_eq_true s.landed with hl | hl
  · rw [groundedStep_eq_of_landed c now s hl, if_pos h]
    simp [bounceStep, threshold]
  · rw [groundedStep_eq_of_not_landed c now s hl, if_pos h]
    simp [bounceStep, updateTrajectory, threshold]

/-- The transform produced by the grounded branch at low speed (the rest
snap), independent of whether this is the first contact. -/
lemma groundedStep_transform_rest (c : Consts) (now : ℚ) (s : CannonBall)
    (h : ¬ 100 < Vec2.sqLen s.transform.velocity) :
    (groundedStep c now s).transform =
      { s.transform with
        position := ⟨s.transform.position.x, threshold c s⟩
        velocity := Vec2.zero
        acceleration := Vec2.zero } := by
  rcases Bool.eq_false_or_eq_true s.landed with hl | hl
  · rw [groundedStep_eq_of_landed c now s hl, if_neg h]
    simp [restStep, threshold]
  · rw [groundedStep_eq_of_not_landed c now s hl, if_neg h]
    simp [restStep, updateTrajectory, threshold]

/-- With the destroy countdown inactive the destroy block is a no-op. -/
lemma destroyStep_eq_of_inactive (dt : ℚ) (s : CannonBall)
    (h : ¬ (0 ≤ s.destroyTimer ∧ s.destroyTimer ≤ s.destroyDuration)) :
    destroyStep dt s = s := by
  unfold destroyStep; rw [if_neg h]

/-- With the destroy countdown active the destroy block decrements the
timer and recomputes the alpha channel. -/
lemma destroyStep_eq_of_active (dt : ℚ) (s : CannonBall)
    (h0 : 0 ≤ s.destroyTimer) (h1 : s.destroyTimer ≤ s.destroyDuration) :
    destroyStep dt s =
      { s with
        destroyTimer := s.destroyTimer - dt
        colorA := ucharCast (255 * ((s.destroyTimer - dt) / s.destroyDuration)) } := by
  unfold destroyStep; rw [if_pos ⟨h0, h1⟩]

/-- With display enabled and the alpha in range, the fade moves the alpha
toward 1 at unit rate, saturating at 1. -/
lemma fadeStep_alpha_of_show (dt : ℚ) (s : CannonBall)
    (h : s.showTrajectory = true) (h0 : 0 ≤ s.trajectoryAlpha)
    (h1 : s.trajectoryAlpha ≤ 1) (hdt : 0 ≤ dt) :
    (fadeStep dt s).trajectoryAlpha = min (s.trajectoryAlpha + dt) 1 := by
  unfold fadeStep
  rcases lt_or_ge s.trajectoryAlpha 1 with hlt | hge
  · rw [if_pos ⟨h, hlt⟩]
    show clampQ (s.trajectoryAlpha + dt) 0 1 = _
    unfold clampQ
    rw [max_eq_left (by linarith)]
  · have hone : s.trajectoryAlpha = 1 := le_antisymm h1 hge
    rw [if_neg (by simp [hone]), if_neg (by simp [h])]
    rw [min_eq_right (by linarith), hone]

/-- With display disabled, the fade moves the alpha toward 0 at unit
rate, saturating at 0. -/
lemma fadeStep_alpha_of_not_show (dt : ℚ) (s : CannonBall)
    (h : s.showTrajectory = false) (h0 : 0 ≤ s.trajectoryAlpha)
    (h1 : s.trajectoryAlpha ≤ 1) (hdt : 0 ≤ dt) :
    (fadeStep dt s).trajectoryAlpha = max (s.trajectoryAlpha - dt) 0 := by
  unfold fadeStep
  rcases lt_or_ge 0 s.trajectoryAlpha with hlt | hge
  · rw [if_neg (by simp [h]), if_pos ⟨by simp [h], hlt⟩]
    show clampQ (s.trajectoryAlpha - dt) 0 1 = _
    unfold clampQ
    rw [min_eq_left (max_le (by linarith) (by norm_num))]
  · have hzero : s.trajectoryAlpha = 0 := le_antisymm hge h0
    rw [if_neg (by simp [h]), if_neg (by simp [hzero])]
    rw [max_eq_right (by linarith), hzero]

/-- Whatever the inputs, the fade leaves an in-range alpha in range (the
clamp handles the moving branches; the idle branches need the range). -/
lemma fadeStep_alpha_mem (dt : ℚ) (s : CannonBall)
    (h0 : 0 ≤ s.trajectoryAlpha) (h1 : s.trajectoryAlpha ≤ 1) :
    0 ≤ (fadeStep dt s).trajectoryAlpha ∧ (fadeStep dt s).trajectoryAlpha ≤ 1 := by
  unfold fadeStep
  split_ifs with ha hb
  · constructor
    · exact le_min (le_max_right _ _) (by rcases max_cases (s.trajectoryAlpha + dt) 0 with ⟨h', _⟩ | ⟨h', _⟩ <;> simp [clampQ])
    · exact min_le_right _ _
  · constructor
    · exact le_min (le_max_right _ _) (by rcases max_cases (s.trajectoryAlpha - dt) 0 with ⟨h', _⟩ | ⟨h', _⟩ <;> simp [clampQ])
    · exact min_le_right _ _
  · exact ⟨h0, h1⟩

/-- The snapshot fields written by the grounded branch on first contact
are exactly the `UpdateTrajectory` values. -/
lemma groundedStep_airTime_of_not_landed (c : Consts) (now : ℚ) (s : CannonBall)
    (h : s.landed = false) :
    (groundedStep c now s).airTime = now - s.startTime := by
  rw [groundedStep_eq_of_not_landed c now s h]
  split_ifs <;> simp [bounceStep, restStep, updateTrajectory]

lemma groundedStep_endPos_of_not_landed (c : Consts) (now : ℚ) (s : CannonBall)
    (h : s.landed = false) :
    (groundedStep c now s).endPos = s.transform.position := by
  rw [groundedStep_eq_of_not_landed c now s h]
  split_ifs <;> simp [bounceStep, restStep, updateTrajectory]

lemma groundedStep_endV_of_not_landed (c : Consts) (now : ℚ) (s : CannonBall)
    (h : s.landed = false) :
    (groundedStep c now s).endV = s.transform.velocity := by
  rw [groundedStep_eq_of_not_landed c now s h]
  split_ifs <;> simp [bounceStep, restStep, updateTrajectory]

lemma groundedStep_controlPoint_of_not_landed (c : Consts) (now : ℚ) (s : CannonBall)
    (h : s.landed = false) :
    (groundedStep c now s).controlPoint =
      lineIntersection s.startPos s.startV s.transform.position
        (Vec2.neg s.transform.velocity) := by
  rw [groundedStep_eq_of_not_landed c now s h]
  split_ifs <;> simp [bounceStep, restStep, updateTrajectory]

/-- On a grounded frame after the first contact the snapshot fields are
left alone. -/
lemma groundedStep_airTime_of_landed (c : Consts) (now : ℚ) (s : CannonBall)
    (h : s.landed = true) :
    (groundedStep c now s).airTime = s.airTime := by
  rw [groundedStep_eq_of_landed c now s h]
  split_ifs <;> simp [bounceStep, restStep]

lemma groundedStep_endPos_of_landed (c : Consts) (now : ℚ) (s : CannonBall)
    (h : s.landed = true) :
    (groundedStep c now s).endPos = s.endPos := by
  rw [groundedStep_eq_of_landed c now s h]
  split_ifs <;> simp [bounceStep, restStep]

lemma groundedStep_endV_of_landed (c : Consts) (now : ℚ) (s : CannonBall)
    (h : s.landed = true) :
    (groundedStep c now s).endV = s.endV := by
  rw [groundedStep_eq_of_landed c now s h]
  split_ifs <;> simp [bounceStep, restStep]

lemma groundedStep_controlPoint_of_landed (c : Consts) (now : ℚ) (s : CannonBall)
    (h : s.landed = true) :
    (groundedStep c now s).controlPoint = s.controlPoint := by
  rw [groundedStep_eq_of_landed c now s h]
  split_ifs <;> simp [bounceStep, restStep]

/-! ### Concrete instances used by the witnesses and counterexamples -/

/-- Concrete constants: gravity 98, pixel scale 1, a rational stand-in for
the float constant PI, positive air density and drag coefficient. -/
def cW : Consts :=
  { gravity := 98
    pixelScale := 1
    piQ := 355/113
    airDensity := 6/5
    sphereDragCoeff := 47/100 }

/-- A concrete ball template: radius 1, elasticity 1/2, destroy duration
1, ground height 100 — so the contact threshold is 99 under `cW`. -/
def mkBall (pos vel acc : Vec2) (landedB : Bool) (timer : ℚ) : CannonBall :=
  { transform := { position := pos, velocity := vel, acceleration := acc }
    radius := 1
    elasticity := 1/2
    groundHeight := 100
    landed := landedB
    startPos := ⟨0, 0⟩
    startV := ⟨10, -10⟩
    endPos := Vec2.zero
    endV := Vec2.zero
    controlPoint := Vec2.zero
    startTime := 0
    airTime := 0
    trajectoryAlpha := 0
    showTrajectory := false
    destroyTimer := timer
    destroyDuration := 1
    colorA := some 255 }

/-- A not-yet-landed ball sitting exactly at the contact threshold
(y = 99), moving at speed 5. -/
def ballAtThreshold : CannonBall := mkBall ⟨0, 99⟩ ⟨3, 4⟩ ⟨0, 98⟩ false (-1)

/-- A not-yet-landed ball strictly under the threshold (y = 100) at speed
30. -/
def ballUnder : CannonBall := mkBall ⟨0, 100⟩ ⟨0, 30⟩ ⟨0, 98⟩ false (-1)

/-- A not-yet-landed ball strictly under the threshold (y = 99.5) at low
speed 5. -/
def ballLowUnder : CannonBall := mkBall ⟨0, 199/2⟩ ⟨3, 4⟩ ⟨0, 98⟩ false (-1)

/-- A landed ball at rest: pinned to the threshold with zero velocity and
acceleration. -/
def restBall : CannonBall := mkBall ⟨0, 99⟩ Vec2.zero Vec2.zero true (-1)

/-! ### C1 -/

/-- C1, counterexample: the claim asserts the landing logic runs whenever
`position.y >= groundHeight - radius*scale`, "in particular … when
position.y equals the threshold exactly".  It does not: with the ball
exactly at the threshold (y = 99, threshold 99) and `landed` still false,
an `Update` call leaves `landed` false — line 67 requires strict
inequality, so at equality neither branch runs. -/
theorem c1_counter_landing_skipped_at_threshold :
    ballAtThreshold.transform.position.y = threshold cW ballAtThreshold ∧
    ballAtThreshold.landed = false ∧
    ((update cW (1/10) 5 ballAtThreshold).ball).landed = false := by
  have hb : ballAtThreshold.transform.position.y = threshold cW ballAtThreshold := by
    norm_num [ballAtThreshold, mkBall, threshold, cW]
  refine ⟨hb, rfl, ?_⟩
  rw [update_eq_boundary cW (1/10) 5 ballAtThreshold hb]
  simp [ballAtThreshold, mkBall]

/-- C1 (amended): for every `Update(deltaTime)` made while the projectile
is STRICTLY past the ground contact threshold (position.y > groundHeight
- radius*scale), the landing logic runs that frame: if `landed` is still
false the trajectory snapshot is frozen and `landed` is set to true, and
then either the bounce or the rest branch executes.  (At position.y
exactly equal to the threshold neither branch runs.) -/
theorem c1_landing_logic_strictly_past (c : Consts) (dt now : ℚ) (s : CannonBall)
    (h : threshold c s < s.transform.position.y) (hl : s.landed = false) :
    ((update c dt now s).ball).landed = true ∧
    ((update c dt now s).ball).airTime = now - s.startTime ∧
    ((update c dt now s).ball).endPos = s.transform.position ∧
    ((update c dt now s).ball).endV = s.transform.velocity ∧
    ((update c dt now s).ball).controlPoint =
      lineIntersection s.startPos s.startV s.transform.position
        (Vec2.neg s.transform.velocity) ∧
    (((update c dt now s).ball).transform =
        (bounceStep c { updateTrajectory now (fadeStep dt s) with landed := true }).transform ∨
     ((update c dt now s).ball).transform =
        (restStep c { updateTrajectory now (fadeStep dt s) with landed := true }).transform) := by
  rw [update_eq_grounded c dt now s h]
  have hl' : (fadeStep dt s).landed = false := by rw [fadeStep_landed]; exact hl
  refine ⟨by simp, ?_, ?_, ?_, ?_, ?_⟩
  · rw [destroyStep_airTime, groundedStep_airTime_of_not_landed _ _ _ hl']
    simp
  · rw [destroyStep_endPos, groundedStep_endPos_of_not_landed _ _ _ hl']
    simp
  · rw [destroyStep_endV, groundedStep_endV_of_not_landed _ _ _ hl']
    simp
  · rw [destroyStep_controlPoint, groundedStep_controlPoint_of_not_landed _ _ _ hl']
    simp
  · rw [destroyStep_transform, groundedStep_eq_of_not_landed _ _ _ hl']
    rcases lt_or_ge 100 (Vec2.sqLen (fadeStep dt s).transform.velocity) with hv | hv
    · left
      rw [if_pos hv]
    · right
      rw [if_neg (not_lt.2 hv)]

/-- Witness for C1: a concrete strictly-grounded, not-yet-landed ball is
marked landed by the call. -/
theorem c1_landing_logic_strictly_past_witness :
    ((update cW (1/10) 5 ballUnder).ball).landed = true :=
  (c1_landing_logic_strictly_past cW (1/10) 5 ballUnder
    (by norm_num [threshold, ballUnder, mkBall, cW]) rfl).1

/-! ### C2 -/

/-- C2, counterexample: the claim asserts a landing burst is emitted on
every frame with the projectile at or under the threshold, "including
frames after the projectile has come to rest".  It is not: one `Update`
on a low-speed grounded ball snaps it to rest exactly at the threshold,
and the following `Update` — a frame with the projectile at the threshold
— emits no burst at all, because line 67 requires the position to be
strictly below the threshold. -/
theorem c2_counter_no_burst_after_rest :
    ((update cW (1/10) 5 ballLowUnder).ball).transform.position.y =
      threshold cW ((update cW (1/10) 5 ballLowUnder).ball) ∧
    (update cW (1/10) 6 ((update cW (1/10) 5 ballLowUnder).ball)).spawns = [] := by
  have h1 : threshold cW ballLowUnder < ballLowUnder.transform.position.y := by
    norm_num [threshold, ballLowUnder, mkBall, cW]
  rw [update_eq_grounded cW (1/10) 5 ballLowUnder h1]
  have hv : ¬ 100 < Vec2.sqLen (fadeStep (1/10) ballLowUnder).transform.velocity := by
    rw [fadeStep_transform]
    norm_num [ballLowUnder, mkBall, Vec2.sqLen]
  have hy : (destroyStep (1/10) (groundedStep cW 5 (fadeStep (1/10) ballLowUnder))).transform.position.y =
      threshold cW (destroyStep (1/10) (groundedStep cW 5 (fadeStep (1/10) ballLowUnder))) := by
    rw [destroyStep_transform, groundedStep_transform_rest _ _ _ hv]
    simp [threshold]
  exact ⟨hy, by rw [update_eq_boundary cW (1/10) 6 _ hy]⟩

/-- C2 (amended): on every `Update` made while the projectile is STRICTLY
under the contact threshold, exactly one landing burst request (polygon
shape, fixed 0.1 second duration, white color, origin offset
radius*scale*1.5 below the post-branch position) is issued to the
particle emitter; on a frame with the projectile exactly at the threshold
— in particular every frame after it has come to rest, since the rest
snap pins it to the threshold — no burst is issued. -/
theorem c2_landing_burst_iff_strictly_under (c : Consts) (dt now : ℚ) (s : CannonBall) :
    (threshold c s < s.transform.position.y →
      (update c dt now s).spawns =
        [{ count := 1
           duration := 1/10
           attached := false
           params :=
             { shape := ParticleShape.polygon
               position := Vec2.add ((update c dt now s).ball).transform.position
                 ⟨0, s.radius * c.pixelScale * (3/2)⟩
               angleMin := -c.piQ / 4
               angleMax := c.piQ + c.piQ / 2
               speedMin := 250
               speedMax := 500
               reservedAMin := 0
               reservedAMax := 0
               reservedBMin := 0
               reservedBMax := 0
               sizeMin := 20
               sizeMax := 35
               lifetimeMin := 1/20
               lifetimeMax := 1/5
               color := RColor.white } }]) ∧
    (s.transform.position.y ≤ threshold c s → (update c dt now s).spawns = []) := by
  constructor
  · intro h
    rw [update_eq_grounded c dt now s h]
    simp [landingSpawn]
  · intro h
    rcases lt_or_eq_of_le h with hlt | heq
    · rw [update_eq_airborne c dt now s hlt]
    · rw [update_eq_boundary c dt now s heq]

/-- Witness for C2: the strictly-grounded concrete ball gets exactly the
white 0.1 s landing burst. -/
theorem c2_landing_burst_iff_strictly_under_witness :
    (update cW (1/10) 5 ballUnder).spawns =
      [{ count := 1
         duration := 1/10
         attached := false
         params :=
           { shape := ParticleShape.polygon
             position := Vec2.add ((update cW (1/10) 5 ballUnder).ball).transform.position
               ⟨0, 1 * 1 * (3/2)⟩
             angleMin := -cW.piQ / 4
             angleMax := cW.piQ + cW.piQ / 2
             speedMin := 250
             speedMax := 500
             reservedAMin := 0
             reservedAMax := 0
             reservedBMin := 0
             reservedBMax := 0
             sizeMin := 20
             sizeMax := 35
             lifetimeMin := 1/20
             lifetimeMax := 1/5
             color := RColor.white } }] := by
  have h := (c2_landing_burst_iff_strictly_under cW (1/10) 5 ballUnder).1
    (by norm_num [threshold, ballUnder, mkBall, cW])
  simpa [ballUnder, mkBall, cW] using h

/-! ### Shared facts: `Update` never changes the configuration fields -/

@[simp] lemma update_ball_radius (c : Consts) (dt now : ℚ) (s : CannonBall) :
    ((update c dt now s).ball).radius = s.radius := by
  unfold update; split_ifs <;> simp

@[simp] lemma update_ball_groundHeight (c : Consts) (dt now : ℚ) (s : CannonBall) :
    ((update c dt now s).ball).groundHeight = s.groundHeight := by
  unfold update; split_ifs <;> simp

@[simp] lemma update_ball_elasticity (c : Consts) (dt now : ℚ) (s : CannonBall) :
    ((update c dt now s).ball).elasticity = s.elasticity := by
  unfold update; split_ifs <;> simp

@[simp] lemma update_ball_destroyDuration (c : Consts) (dt now : ℚ) (s : CannonBall) :
    ((update c dt now s).ball).destroyDuration = s.destroyDuration := by
  unfold update; split_ifs <;> simp

@[simp] lemma threshold_update_ball (c : Consts) (dt now : ℚ) (s : CannonBall) :
    threshold c ((update c dt now s).ball) = threshold c s := by
  simp [threshold]

/-! ### C3 -/

/-- C3: on every `Update` taking the bounce branch (strictly past the
threshold, speed above 10), the post-bounce speed is the pre-bounce speed
times `elasticity`, the vertical velocity is the sign-flipped pre-bounce
vertical velocity scaled by `elasticity`, and the vertical position is
set to the contact threshold minus the 0.01 epsilon.  Speeds are the real
square roots of the squared norms; `0 ≤ elasticity` reflects the spec's
"coefficient of restitution, 0..1". -/
theorem c3_bounce_reflection (c : Consts) (dt now : ℚ) (s : CannonBall)
    (h : threshold c s < s.transform.position.y)
    (hv : 10 < Real.sqrt ((Vec2.sqLen s.transform.velocity : ℚ) : ℝ))
    (he : 0 ≤ s.elasticity) :
    Real.sqrt ((Vec2.sqLen ((update c dt now s).ball).transform.velocity : ℚ) : ℝ) =
      (s.elasticity : ℝ) * Real.sqrt ((Vec2.sqLen s.transform.velocity : ℚ) : ℝ) ∧
    ((update c dt now s).ball).transform.velocity.y =
      -(s.elasticity * s.transform.velocity.y) ∧
    ((update c dt now s).ball).transform.position.y = threshold c s - 1/100 := by
  have hv' : 100 < Vec2.sqLen s.transform.velocity := (ten_lt_sqrt_iff _).1 hv
  rw [update_eq_grounded c dt now s h]
  have hfv : 100 < Vec2.sqLen (fadeStep dt s).transform.velocity := by
    rw [fadeStep_transform]; exact hv'
  have hb : (destroyStep dt (groundedStep c now (fadeStep dt s))).transform =
      { (fadeStep dt s).transform with
        position := ⟨(fadeStep dt s).transform.position.x, threshold c (fadeStep dt s) - 1/100⟩
        velocity := Vec2.smul (fadeStep dt s).elasticity
          ⟨(fadeStep dt s).transform.velocity.x, -(fadeStep dt s).transform.velocity.y⟩ } := by
    rw [destroyStep_transform, groundedStep_transform_bounce _ _ _ hfv]
  refine ⟨?_, ?_, ?_⟩
  · show Real.sqrt ((Vec2.sqLen (destroyStep dt (groundedStep c now (fadeStep dt s))).transform.velocity : ℚ) : ℝ) = _
    rw [hb]
    have key : Vec2.sqLen (Vec2.smul (fadeStep dt s).elasticity
        ⟨(fadeStep dt s).transform.velocity.x, -(fadeStep dt s).transform.velocity.y⟩) =
        s.elasticity ^ 2 * Vec2.sqLen s.transform.velocity := by
      rw [fadeStep_elasticity, fadeStep_transform]
      unfold Vec2.sqLen Vec2.smul
      ring
    show Real.sqrt _ = _
    rw [key]
    push_cast
    rw [Real.sqrt_mul (by positivity) ((Vec2.sqLen s.transform.velocity : ℚ) : ℝ),
      Real.sqrt_sq (by exact_mod_cast he)]
  · show (destroyStep dt (groundedStep c now (fadeStep dt s))).transform.velocity.y = _
    rw [hb]
    simp [Vec2.smul]
  · show (destroyStep dt (groundedStep c now (fadeStep dt s))).transform.position.y = _
    rw [hb]
    simp

/-- Witness for C3: the concrete grounded ball at speed 30 with
elasticity 1/2 bounces to speed 15, vertical velocity −15, at y =
threshold − 0.01 = 98.99. -/
theorem c3_bounce_reflection_witness :
    Real.sqrt ((Vec2.sqLen ((update cW (1/10) 5 ballUnder).ball).transform.velocity : ℚ) : ℝ) = 15 ∧
    ((update cW (1/10) 5 ballUnder).ball).transform.velocity.y = -15 ∧
    ((update cW (1/10) 5 ballUnder).ball).transform.position.y = 9899/100 := by
  have hsq : Vec2.sqLen ballUnder.transform.velocity = 900 := by
    norm_num [ballUnder, mkBall, Vec2.sqLen]
  have h := c3_bounce_reflection cW (1/10) 5 ballUnder
    (by norm_num [threshold, ballUnder, mkBall, cW])
    (by rw [hsq]; exact (ten_lt_sqrt_iff 900).2 (by norm_num))
    (by norm_num [ballUnder, mkBall])
  refine ⟨?_, ?_, ?_⟩
  · rw [h.1, hsq, show ((900:ℚ) : ℝ) = (30:ℝ)^2 by norm_num,
      Real.sqrt_sq (by norm_num : (0:ℝ) ≤ 30)]
    norm_num [ballUnder, mkBall]
  · rw [h.2.1]; norm_num [ballUnder, mkBall]
  · rw [h.2.2]; norm_num [threshold, ballUnder, mkBall, cW]

/-! ### C4 -/

/-- The rest state the claim describes: zero velocity, zero acceleration,
vertical position pinned to the contact threshold. -/
def atRest (c : Consts) (s : CannonBall) : Prop :=
  s.transform.velocity = Vec2.zero ∧ s.transform.acceleration = Vec2.zero ∧
  s.transform.position.y = threshold c s

/-- A resting ball sits exactly at the threshold, where neither branch of
`Update` runs, so the whole transform is preserved. -/
lemma atRest_update (c : Consts) (dt now : ℚ) (s : CannonBall)
    (hr : atRest c s) : atRest c ((update c dt now s).ball) := by
  rcases hr with ⟨hv, ha, hy⟩
  rw [update_eq_boundary c dt now s hy]
  refine ⟨?_, ?_, ?_⟩ <;>
    simp [threshold, hv, ha, hy]

/-- Rest is preserved across any sequence of host frames. -/
lemma atRest_runUpdates (c : Consts) (s : CannonBall) (fs : List Frame)
    (hr : atRest c s) : atRest c (runUpdates c s fs) := by
  induction fs generalizing s with
  | nil => exact hr
  | cons f fs ih =>
    have hr' : atRest c { s with showTrajectory := f.showTraj } := by
      simpa [atRest, threshold] using hr
    exact ih _ (atRest_update c f.dt f.now _ hr')

/-- C4, counterexample: the claim's entry condition reads "at or under
the threshold with speed at most 10".  At position exactly equal to the
threshold with speed 5, the call does NOT zero the velocity: neither
branch of lines 59/67 runs, so the velocity stays (3, 4). -/
theorem c4_counter_no_rest_entry_at_threshold :
    ballAtThreshold.transform.position.y = threshold cW ballAtThreshold ∧
    Real.sqrt ((Vec2.sqLen ballAtThreshold.transform.velocity : ℚ) : ℝ) ≤ 10 ∧
    ((update cW (1/10) 5 ballAtThreshold).ball).transform.velocity = ⟨3, 4⟩ := by
  have hb : ballAtThreshold.transform.position.y = threshold cW ballAtThreshold := by
    norm_num [ballAtThreshold, mkBall, threshold, cW]
  have hsq : Vec2.sqLen ballAtThreshold.transform.velocity = 25 := by
    norm_num [ballAtThreshold, mkBall, Vec2.sqLen]
  refine ⟨hb, ?_, ?_⟩
  · rw [hsq]; exact (sqrt_le_ten_iff 25).2 (by norm_num)
  · rw [update_eq_boundary cW (1/10) 5 ballAtThreshold hb]
    simp [ballAtThreshold, mkBall]

/-- C4 (amended): once an `Update` call finds the projectile STRICTLY
under the threshold with speed at most 10, that call sets velocity and
acceleration to exactly zero and position.y to exactly `groundHeight -
radius*scale`, and for every subsequent `Update` call (any deltaTime) the
rest state persists.  (At position exactly equal to the threshold the
rest branch does not run; the rest state itself sits at the threshold,
which is why it persists.) -/
theorem c4_rest_entry_and_persistence (c : Consts) (dt now : ℚ) (s : CannonBall) :
    (threshold c s < s.transform.position.y →
      Real.sqrt ((Vec2.sqLen s.transform.velocity : ℚ) : ℝ) ≤ 10 →
      atRest c ((update c dt now s).ball)) ∧
    (atRest c s → atRest c ((update c dt now s).ball)) ∧
    (atRest c s → ∀ fs : List Frame, atRest c (runUpdates c s fs)) := by
  refine ⟨?_, atRest_update c dt now s, fun hr fs => atRest_runUpdates c s fs hr⟩
  intro h hv
  have hv' : Vec2.sqLen s.transform.velocity ≤ 100 := (sqrt_le_ten_iff _).1 hv
  rw [update_eq_grounded c dt now s h]
  have hrest : (groundedStep c now (fadeStep dt s)).transform =
      { (fadeStep dt s).transform with
        position := ⟨(fadeStep dt s).transform.position.x, threshold c (fadeStep dt s)⟩
        velocity := Vec2.zero
        acceleration := Vec2.zero } :=
    groundedStep_transform_rest _ _ _ (by rw [fadeStep_transform]; exact not_lt.2 hv')
  refine ⟨?_, ?_, ?_⟩ <;> simp [hrest, threshold]

/-- Witness for C4: the concrete low-speed grounded ball is snapped to
rest by one call. -/
theorem c4_rest_entry_and_persistence_witness :
    atRest cW ((update cW (1/10) 5 ballLowUnder).ball) := by
  have hsq : Vec2.sqLen ballLowUnder.transform.velocity = 25 := by
    norm_num [ballLowUnder, mkBall, Vec2.sqLen]
  exact (c4_rest_entry_and_persistence cW (1/10) 5 ballLowUnder).1
    (by norm_num [threshold, ballLowUnder, mkBall, cW])
    (by rw [hsq]; exact (sqrt_le_ten_iff 25).2 (by norm_num))

/-! ### C5 -/

/-- Each of the three position branches ends by applying the destroy
block to a state whose destroy fields are those of the input. -/
lemma update_ball_destroy_fields (c : Consts) (dt now : ℚ) (s : CannonBall) :
    ∃ t, (update c dt now s).ball = destroyStep dt t ∧
      t.destroyTimer = s.destroyTimer ∧ t.destroyDuration = s.destroyDuration := by
  unfold update
  split_ifs
  · exact ⟨airborneStep dt now (fadeStep dt s), rfl, by simp, by simp⟩
  · exact ⟨groundedStep c now (fadeStep dt s), rfl, by simp, by simp⟩
  · exact ⟨fadeStep dt s, rfl, by simp, by simp⟩

/-- One `Update` with the fade active: the timer drops by `dt` and the
alpha is recomputed from the new timer. -/
lemma update_ball_destroy_active (c : Consts) (dt now : ℚ) (s : CannonBall)
    (h0 : 0 ≤ s.destroyTimer) (h1 : s.destroyTimer ≤ s.destroyDuration) :
    ((update c dt now s).ball).destroyTimer = s.destroyTimer - dt ∧
    ((update c dt now s).ball).colorA =
      ucharCast (255 * ((s.destroyTimer - dt) / s.destroyDuration)) := by
  obtain ⟨t, ht, htimer, hdur⟩ := update_ball_destroy_fields c dt now s
  rw [ht, destroyStep_eq_of_active dt t (htimer ▸ h0)
    (by rw [htimer, hdur]; exact h1)]
  exact ⟨by simp [htimer], by simp [htimer, hdur]⟩

/-- Running frames with nonnegative deltas that never drive the timer
negative: the timer drops by the total elapsed time, the duration is
unchanged, and (once at least one frame ran) the alpha reflects the final
timer. -/
lemma destroy_run (c : Consts) (fs : List Frame) (s : CannonBall)
    (hdt : ∀ f ∈ fs, 0 ≤ f.dt)
    (h0 : 0 ≤ s.destroyTimer) (h1 : s.destroyTimer ≤ s.destroyDuration)
    (hsum : 0 ≤ s.destroyTimer - (List.map Frame.dt fs).sum) :
    (runUpdates c s fs).destroyTimer = s.destroyTimer - (List.map Frame.dt fs).sum ∧
    (runUpdates c s fs).destroyDuration = s.destroyDuration ∧
    (fs = [] ∨ (runUpdates c s fs).colorA =
      ucharCast (255 * ((s.destroyTimer - (List.map Frame.dt fs).sum) / s.destroyDuration))) := by
  induction fs generalizing s with
  | nil => simp [runUpdates]
  | cons f fs ih =>
    have hfdt : 0 ≤ f.dt := hdt f (by simp)
    have hrest : ∀ g ∈ fs, 0 ≤ g.dt := fun g hg => hdt g (by simp [hg])
    have hsumrest : 0 ≤ (List.map Frame.dt fs).sum :=
      List.sum_nonneg (by intro q hq; obtain ⟨g, hg, rfl⟩ := List.mem_map.1 hq; exact hrest g hg)
    have hstep := update_ball_destroy_active c f.dt f.now
      { s with showTrajectory := f.showTraj } (by simpa using h0) (by simpa using h1)
    have hb : runUpdates c s (f :: fs) = runUpdates c (step c s f) fs := rfl
    have htimer : (step c s f).destroyTimer = s.destroyTimer - f.dt := by
      simpa [step] using hstep.1
    have hdur : (step c s f).destroyDuration = s.destroyDuration := by
      simp [step]
    have hcol : (step c s f).colorA =
        ucharCast (255 * ((s.destroyTimer - f.dt) / s.destroyDuration)) := by
      simpa [step] using hstep.2
    have hsum' : 0 ≤ (step c s f).destroyTimer - (List.map Frame.dt fs).sum := by
      rw [htimer]
      have : (List.map Frame.dt (f :: fs)).sum = f.dt + (List.map Frame.dt fs).sum := by simp
      rw [this] at hsum
      linarith
    have h0' : 0 ≤ (step c s f).destroyTimer := by
      rw [htimer]; linarith
    have h1' : (step c s f).destroyTimer ≤ (step c s f).destroyDuration := by
      rw [htimer, hdur]; linarith
    obtain ⟨ht, hd, hc⟩ := ih (step c s f) hrest h0' h1' hsum'
    refine ⟨?_, ?_, Or.inr ?_⟩
    · rw [hb, ht, htimer]
      simp [sub_sub]
    · rw [hb, hd, hdur]
    · rcases hc with hnil | hc
      · rw [hb, hnil]
        simp only [runUpdates, List.foldl_nil]
        rw [hcol]
        simp
      · rw [hb, hc, htimer, hdur]
        have : (List.map Frame.dt (f :: fs)).sum = f.dt + (List.map Frame.dt fs).sum := by simp
        rw [this, sub_sub]

/-- The overshooting frame sequence of the C5 counterexample: three
updates of 0.4 s each, total 1.2 s. -/
def overshootFrames : List Frame := [⟨2/5, 0, false⟩, ⟨2/5, 1, false⟩, ⟨2/5, 2, false⟩]

/-- C5, counterexample: the claim says that after `Destroy()` with
duration 1.0, cumulative update time of at least 1.0 leaves alpha equal
to 0.  With three 0.4 s updates (cumulative 1.2) the frame that crosses
zero starts with timer 0.2 — still satisfying `0 <= destroyTimer <=
destroyDuration` — so line 111 converts the negative value 255·(−0.2) to
`unsigned char`, which C++ leaves undefined (modelled `none`): the alpha
is not 0. -/
theorem c5_counter_alpha_after_overshoot :
    (List.map Frame.dt overshootFrames).sum = 6/5 ∧
    (runUpdates cW (destroy restBall) overshootFrames).colorA = none := by
  have hsum : (List.map Frame.dt overshootFrames).sum = 6/5 := by
    norm_num [overshootFrames]
  refine ⟨hsum, ?_⟩
  have h2 := destroy_run cW [⟨2/5, 0, false⟩, ⟨2/5, 1, false⟩] (destroy restBall)
    (by intro f hf; fin_cases hf <;> norm_num)
    (by norm_num [destroy, restBall, mkBall])
    (by norm_num [destroy, restBall, mkBall])
    (by norm_num [destroy, restBall, mkBall])
  have hb : runUpdates cW (destroy restBall) overshootFrames =
      step cW (runUpdates cW (destroy restBall) [⟨2/5, 0, false⟩, ⟨2/5, 1, false⟩])
        ⟨2/5, 2, false⟩ := rfl
  rw [hb]
  have htimer : (runUpdates cW (destroy restBall)
      [⟨2/5, 0, false⟩, ⟨2/5, 1, false⟩]).destroyTimer = 1/5 := by
    rw [h2.1]; norm_num [destroy, restBall, mkBall]
  have hdur : (runUpdates cW (destroy restBall)
      [⟨2/5, 0, false⟩, ⟨2/5, 1, false⟩]).destroyDuration = 1 := by
    rw [h2.2.1]; norm_num [destroy, restBall, mkBall]
  have hfinal : (step cW (runUpdates cW (destroy restBall)
      [⟨2/5, 0, false⟩, ⟨2/5, 1, false⟩]) ⟨2/5, 2, false⟩).colorA =
      ucharCast (255 * ((1/5 - 2/5) / 1)) := by
    have hstep := update_ball_destroy_active cW (2/5) 2
      { runUpdates cW (destroy restBall) [⟨2/5, 0, false⟩, ⟨2/5, 1, false⟩] with
        showTrajectory := false }
      (by norm_num [htimer]) (by norm_num [htimer, hdur])
    simpa [step, htimer, hdur] using hstep.2
  rw [hfinal]
  norm_num [ucharCast, ratTrunc]

/-- C5 (amended): `Destroy()` sets `destroyTimer` to `destroyDuration`
and changes nothing else.  Every `Update(deltaTime)` made with the fade
active (`0 <= destroyTimer <= destroyDuration` before the call)
decrements the timer by `deltaTime` and sets the alpha channel to the
`unsigned char` conversion of `255 * destroyTimer / destroyDuration`.
With `destroyDuration = 1.0`, after nonnegative `Update` deltas summing
to 0.5 the alpha is 127 (within 1 of 128), and after deltas summing to
EXACTLY 1.0 the alpha is 0.  (If the deltas overshoot 1.0, the crossing
frame converts a negative value to `unsigned char`, which the code leaves
undefined, so "alpha = 0 after at least 1.0" does not hold.) -/
theorem c5_destroy_and_fade (c : Consts) :
    (∀ s : CannonBall, destroy s = { s with destroyTimer := s.destroyDuration }) ∧
    (∀ (dt now : ℚ) (s : CannonBall),
      0 ≤ s.destroyTimer → s.destroyTimer ≤ s.destroyDuration →
      ((update c dt now s).ball).destroyTimer = s.destroyTimer - dt ∧
      ((update c dt now s).ball).colorA =
        ucharCast (255 * ((s.destroyTimer - dt) / s.destroyDuration))) ∧
    (∀ fs : List Frame, (∀ f ∈ fs, 0 ≤ f.dt) → fs ≠ [] →
      (List.map Frame.dt fs).sum = 1/2 →
      (runUpdates c (destroy restBall) fs).colorA = some 127) ∧
    (∀ fs : List Frame, (∀ f ∈ fs, 0 ≤ f.dt) → fs ≠ [] →
      (List.map Frame.dt fs).sum = 1 →
      (runUpdates c (destroy restBall) fs).colorA = some 0) := by
  refine ⟨fun s => rfl, update_ball_destroy_active c, ?_, ?_⟩
  · intro fs hdt hne hsum
    have h := destroy_run c fs (destroy restBall) hdt
      (by norm_num [destroy, restBall, mkBall])
      (by norm_num [destroy, restBall, mkBall])
      (by rw [hsum]; norm_num [destroy, restBall, mkBall])
    rcases h.2.2 with hnil | hc
    · exact absurd hnil hne
    · rw [hc, hsum]
      norm_num [destroy, restBall, mkBall, ucharCast, ratTrunc]
      rfl
  · intro fs hdt hne hsum
    have h := destroy_run c fs (destroy restBall) hdt
      (by norm_num [destroy, restBall, mkBall])
      (by norm_num [destroy, restBall, mkBall])
      (by rw [hsum]; norm_num [destroy, restBall, mkBall])
    rcases h.2.2 with hnil | hc
    · exact absurd hnil hne
    · rw [hc, hsum]
      norm_num [destroy, restBall, mkBall, ucharCast, ratTrunc]

/-- Witness for C5: two 0.25 s frames after `Destroy()` leave alpha 127. -/
theorem c5_destroy_and_fade_witness :
    (runUpdates cW (destroy restBall) [⟨1/4, 0, false⟩, ⟨1/4, 1, false⟩]).colorA =
      some 127 :=
  (c5_destroy_and_fade cW).2.2.1 [⟨1/4, 0, false⟩, ⟨1/4, 1, false⟩]
    (by intro f hf; fin_cases hf <;> norm_num)
    (by simp)
    (by norm_num)

/-! ### C6 -/

/-- Once landed, every branch of `Update` keeps `landed` true: the
airborne branch never writes it, the grounded branch only sets it. -/
lemma landed_update (c : Consts) (dt now : ℚ) (s : CannonBall)
    (h : s.landed = true) : ((update c dt now s).ball).landed = true := by
  unfold update
  split_ifs <;> simp [h]

/-- `landed` stays true across any sequence of host frames. -/
lemma landed_runUpdates (c : Consts) (s : CannonBall) (fs : List Frame)
    (h : s.landed = true) : (runUpdates c s fs).landed = true := by
  induction fs generalizing s with
  | nil => exact h
  | cons f fs ih =>
    exact ih _ (landed_update c f.dt f.now _ (by simpa using h))

/-- C6: `landed` starts false at construction, is never cleared by
`Update` (single step and across any frame sequence), and `Destroy`
leaves it untouched — so it transitions false→true at most once and stays
true thereafter. -/
theorem c6_landed_monotone :
    (∀ (c : Consts) (p v : Vec2) (r e d g n : ℚ),
      (create c p v r e d g n).landed = false) ∧
    (∀ (c : Consts) (dt now : ℚ) (s : CannonBall),
      s.landed = true → ((update c dt now s).ball).landed = true) ∧
    (∀ s : CannonBall, (destroy s).landed = s.landed) ∧
    (∀ (c : Consts) (s : CannonBall) (fs : List Frame),
      s.landed = true → (runUpdates c s fs).landed = true) :=
  ⟨fun _ _ _ _ _ _ _ _ => rfl, landed_update, fun _ => rfl, landed_runUpdates⟩

/-- Witness for C6: the landed concrete ball stays landed. -/
theorem c6_landed_monotone_witness :
    ((update cW 1 0 restBall).ball).landed = true :=
  c6_landed_monotone.2.1 cW 1 0 restBall rfl

/-! ### C7 -/

/-- Only the fade block of `Update` touches `trajectoryAlpha`. -/
lemma update_ball_trajectoryAlpha (c : Consts) (dt now : ℚ) (s : CannonBall) :
    ((update c dt now s).ball).trajectoryAlpha = (fadeStep dt s).trajectoryAlpha := by
  unfold update
  split_ifs <;> simp

/-- The `[0, 1]` bound survives any sequence of host frames, whatever the
per-frame `showTrajectory` values. -/
lemma alpha_runUpdates (c : Consts) (s : CannonBall) (fs : List Frame)
    (h0 : 0 ≤ s.trajectoryAlpha) (h1 : s.trajectoryAlpha ≤ 1) :
    0 ≤ (runUpdates c s fs).trajectoryAlpha ∧
    (runUpdates c s fs).trajectoryAlpha ≤ 1 := by
  induction fs generalizing s with
  | nil => exact ⟨h0, h1⟩
  | cons f fs ih =>
    have hs := fadeStep_alpha_mem f.dt { s with showTrajectory := f.showTraj }
      (by simpa using h0) (by simpa using h1)
    have hstep0 : 0 ≤ (step c s f).trajectoryAlpha := by
      rw [step, update_ball_trajectoryAlpha]; exact hs.1
    have hstep1 : (step c s f).trajectoryAlpha ≤ 1 := by
      rw [step, update_ball_trajectoryAlpha]; exact hs.2
    exact ih _ hstep0 hstep1

/-- C7: starting from an in-range alpha, every `Update` with nonnegative
delta keeps `trajectoryAlpha` in `[0, 1]`, moving it toward 1 at unit
rate while `showTrajectory` is set (saturating at 1) and toward 0
otherwise (saturating at 0); the bound survives any frame sequence with
arbitrary per-frame toggling. -/
theorem c7_trajectoryAlpha_bounds :
    (∀ (c : Consts) (dt now : ℚ) (s : CannonBall), 0 ≤ dt →
      0 ≤ s.trajectoryAlpha → s.trajectoryAlpha ≤ 1 →
      (0 ≤ ((update c dt now s).ball).trajectoryAlpha ∧
        ((update c dt now s).ball).trajectoryAlpha ≤ 1) ∧
      (s.showTrajectory = true →
        ((update c dt now s).ball).trajectoryAlpha = min (s.trajectoryAlpha + dt) 1) ∧
      (s.showTrajectory = false →
        ((update c dt now s).ball).trajectoryAlpha = max (s.trajectoryAlpha - dt) 0)) ∧
    (∀ (c : Consts) (s : CannonBall) (fs : List Frame),
      (∀ f ∈ fs, 0 ≤ f.dt) → 0 ≤ s.trajectoryAlpha → s.trajectoryAlpha ≤ 1 →
      0 ≤ (runUpdates c s fs).trajectoryAlpha ∧
        (runUpdates c s fs).trajectoryAlpha ≤ 1) := by
  constructor
  · intro c dt now s hdt h0 h1
    rw [update_ball_trajectoryAlpha]
    exact ⟨fadeStep_alpha_mem dt s h0 h1,
      fun h => fadeStep_alpha_of_show dt s h h0 h1 hdt,
      fun h => fadeStep_alpha_of_not_show dt s h h0 h1 hdt⟩
  · intro c s fs _ h0 h1
    exact alpha_runUpdates c s fs h0 h1

/-- Witness for C7: one concrete frame keeps the alpha in range. -/
theorem c7_trajectoryAlpha_bounds_witness :
    0 ≤ ((update cW 1 0 restBall).ball).trajectoryAlpha ∧
    ((update cW 1 0 restBall).ball).trajectoryAlpha ≤ 1 :=
  (c7_trajectoryAlpha_bounds.1 cW 1 0 restBall (by norm_num)
    (by norm_num [restBall, mkBall]) (by norm_num [restBall, mkBall])).1

/-! ### C8 -/

/-- Once landed, one `Update` leaves the whole trajectory snapshot
untouched, whichever position branch runs (after a bounce the ball is
airborne again, but line 63's `!landed` guard skips the recomputation). -/
lemma snapshot_update (c : Consts) (dt now : ℚ) (s : CannonBall)
    (h : s.landed = true) :
    ((update c dt now s).ball).airTime = s.airTime ∧
    ((update c dt now s).ball).endPos = s.endPos ∧
    ((update c dt now s).ball).endV = s.endV ∧
    ((update c dt now s).ball).controlPoint = s.controlPoint := by
  have hf : (fadeStep dt s).landed = true := by simpa using h
  unfold update
  split_ifs
  · refine ⟨?_, ?_, ?_, ?_⟩ <;> simp [airborneStep_eq_of_landed dt now _ hf]
  · exact ⟨by simp [groundedStep_airTime_of_landed c now _ hf],
      by simp [groundedStep_endPos_of_landed c now _ hf],
      by simp [groundedStep_endV_of_landed c now _ hf],
      by simp [groundedStep_controlPoint_of_landed c now _ hf]⟩
  · exact ⟨by simp, by simp, by simp, by simp⟩

/-- C8: once `landed` is true, no subsequent `Update` — single call or
any sequence of host frames, including post-bounce airborne frames —
modifies `airTime`, `endPos`, `endVelocity` or `controlPoint`. -/
theorem c8_snapshot_frozen (c : Consts) (dt now : ℚ) (s : CannonBall)
    (h : s.landed = true) :
    (((update c dt now s).ball).airTime = s.airTime ∧
      ((update c dt now s).ball).endPos = s.endPos ∧
      ((update c dt now s).ball).endV = s.endV ∧
      ((update c dt now s).ball).controlPoint = s.controlPoint) ∧
    (∀ fs : List Frame,
      (runUpdates c s fs).airTime = s.airTime ∧
      (runUpdates c s fs).endPos = s.endPos ∧
      (runUpdates c s fs).endV = s.endV ∧
      (runUpdates c s fs).controlPoint = s.controlPoint) := by
  refine ⟨snapshot_update c dt now s h, ?_⟩
  intro fs
  induction fs generalizing s with
  | nil => exact ⟨rfl, rfl, rfl, rfl⟩
  | cons f fs ih =>
    have hs' : ((update c f.dt f.now { s with showTrajectory := f.showTraj }).ball).landed = true :=
      landed_update c f.dt f.now _ (by simpa using h)
    have hone := snapshot_update c f.dt f.now { s with showTrajectory := f.showTraj }
      (by simpa using h)
    obtain ⟨h1, h2, h3, h4⟩ := ih _ hs'
    exact ⟨h1.trans hone.1, h2.trans hone.2.1,
      h3.trans hone.2.2.1, h4.trans hone.2.2.2⟩

/-- Witness for C8: the snapshot of the landed concrete ball survives a
call. -/
theorem c8_snapshot_frozen_witness :
    ((update cW 1 0 restBall).ball).airTime = restBall.airTime :=
  (c8_snapshot_frozen cW 1 0 restBall rfl).1.1

/-! ### C9 -/

lemma vec2_eq (a b : Vec2) (hx : a.x = b.x) (hy : a.y = b.y) : a = b := by
  cases a; cases b; simp_all

/-- The airborne ball used by the C9 witness: velocity (7, 0). -/
def dragBall : CannonBall := mkBall ⟨0, 0⟩ ⟨7, 0⟩ ⟨0, 98⟩ false (-1)

/-- C9: `ComputeDrag()` returns `-0.5 * airDensity * dragCoefficient * π
* radius² * |velocity| * velocity` — a pure function of the state (the
embedding returns a value and by construction mutates nothing); at
velocity (0,0) it returns the zero vector, and at velocity (v,0) with v >
0 it returns a vector pointing in the −x direction with magnitude
`0.5·airDensity·dragCoefficient·π·radius²·v²`.  `len` is the norm
`velocity.GetLength()`, characterized by `0 ≤ len` and `len · len =
sqLen velocity`. -/
theorem c9_computeDrag (c : Consts) (s : CannonBall) (len : ℚ)
    (h0 : 0 ≤ len) (hlen : len * len = Vec2.sqLen s.transform.velocity)
    (hden : 0 < c.airDensity) (hcd : 0 < c.sphereDragCoeff)
    (hpi : 0 < c.piQ) (hr : 0 < s.radius) :
    computeDrag c s len =
      Vec2.smul (-(1/2 * c.airDensity * c.sphereDragCoeff * c.piQ *
        (s.radius * s.radius)) * len) s.transform.velocity ∧
    (s.transform.velocity = Vec2.zero → computeDrag c s len = Vec2.zero) ∧
    (s.transform.velocity.y = 0 → 0 < s.transform.velocity.x →
      (computeDrag c s len).x =
        -(1/2 * c.airDensity * c.sphereDragCoeff * c.piQ * (s.radius * s.radius)) *
          (s.transform.velocity.x * s.transform.velocity.x) ∧
      (computeDrag c s len).x < 0 ∧ (computeDrag c s len).y = 0) := by
  refine ⟨?_, ?_, ?_⟩
  · refine vec2_eq _ _ ?_ ?_ <;> (simp [computeDrag, Vec2.smul]; try ring)
  · intro hv
    have hz : Vec2.sqLen s.transform.velocity = 0 := by
      rw [hv]; norm_num [Vec2.sqLen, Vec2.zero]
    have hl : len = 0 := mul_self_eq_zero.1 (by rw [hlen, hz])
    refine vec2_eq _ _ ?_ ?_ <;> simp [computeDrag, Vec2.smul, hv, Vec2.zero, hl]
  · intro hy hx
    have hsq : Vec2.sqLen s.transform.velocity =
        s.transform.velocity.x * s.transform.velocity.x := by
      unfold Vec2.sqLen; rw [hy]; ring
    have hlen' : len * len = s.transform.velocity.x * s.transform.velocity.x := by
      rw [hlen, hsq]
    have hl : len = s.transform.velocity.x := by
      rcases mul_self_eq_mul_self_iff.1 hlen' with h' | h'
      · exact h'
      · exfalso; rw [h'] at h0; linarith
    have hk : 0 < 1/2 * c.airDensity * c.sphereDragCoeff * c.piQ *
        (s.radius * s.radius) := by positivity
    refine ⟨?_, ?_, ?_⟩
    · simp [computeDrag, Vec2.smul, hl]; try ring
    · have hp := mul_pos hk (mul_pos hx hx)
      simp only [computeDrag, Vec2.smul, hl]
      nlinarith [hp]
    · simp [computeDrag, Vec2.smul, hy]

/-- Witness for C9: at velocity (7, 0) the drag points in the −x
direction with zero vertical component. -/
theorem c9_computeDrag_witness :
    (computeDrag cW dragBall 7).x < 0 ∧ (computeDrag cW dragBall 7).y = 0 := by
  have h := c9_computeDrag cW dragBall 7 (by norm_num)
    (by norm_num [dragBall, mkBall, Vec2.sqLen])
    (by norm_num [cW]) (by norm_num [cW]) (by norm_num [cW])
    (by norm_num [dragBall, mkBall])
  have h3 := h.2.2 (by norm_num [dragBall, mkBall]) (by norm_num [dragBall, mkBall])
  exact ⟨h3.2.1, h3.2.2⟩

/-! ### C10 -/

/-- The invariant of C10: the acceleration is either the constructor's
`{0, gravity}` or the rest snap's `{0, 0}`. -/
def accOK (c : Consts) (s : CannonBall) : Prop :=
  s.transform.acceleration = ⟨0, c.gravity⟩ ∨ s.transform.acceleration = Vec2.zero

/-- One `Update` preserves the acceleration invariant: the airborne
integration (semi-implicit Euler) and the bounce leave the acceleration
alone, the rest snap zeroes it, and drag is never added. -/
lemma accOK_update (c : Consts) (dt now : ℚ) (s : CannonBall)
    (h : accOK c s) : accOK c ((update c dt now s).ball) := by
  unfold update
  split_ifs
  · unfold accOK at h ⊢
    simpa using h
  · rcases lt_or_ge 100 (Vec2.sqLen (fadeStep dt s).transform.velocity) with hv | hv
    · have hb := groundedStep_transform_bounce c now (fadeStep dt s) hv
      unfold accOK at h ⊢
      simpa [hb] using h
    · have hb := groundedStep_transform_rest c now (fadeStep dt s) (not_lt.2 hv)
      refine Or.inr ?_
      simp [hb]
  · unfold accOK at h ⊢
    simpa using h

/-- The acceleration invariant survives any sequence of host frames. -/
lemma accOK_runUpdates (c : Consts) (s : CannonBall) (fs : List Frame)
    (h : accOK c s) : accOK c (runUpdates c s fs) := by
  induction fs generalizing s with
  | nil => exact h
  | cons f fs ih =>
    exact ih _ (accOK_update c f.dt f.now _ (by simpa [accOK] using h))

/-- C10: in every reachable state the acceleration is exactly
`{0, gravity}` (set at construction) or exactly `{0, 0}` (after the rest
snap); its horizontal component is always zero, and `Update` (single
step or any frame sequence), `Destroy` and `UpdateTrajectory` all
preserve the invariant — drag is never added to the acceleration. -/
theorem c10_acceleration_invariant :
    (∀ (c : Consts) (p v : Vec2) (r e d g n : ℚ),
      (create c p v r e d g n).transform.acceleration = ⟨0, c.gravity⟩) ∧
    (∀ (c : Consts) (s : CannonBall), accOK c s → s.transform.acceleration.x = 0) ∧
    (∀ (c : Consts) (dt now : ℚ) (s : CannonBall), accOK c s →
      accOK c ((update c dt now s).ball)) ∧
    (∀ s : CannonBall, (destroy s).transform.acceleration = s.transform.acceleration) ∧
    (∀ (now : ℚ) (s : CannonBall),
      (updateTrajectory now s).transform.acceleration = s.transform.acceleration) ∧
    (∀ (c : Consts) (s : CannonBall) (fs : List Frame), accOK c s →
      accOK c (runUpdates c s fs)) := by
  refine ⟨fun _ _ _ _ _ _ _ _ => rfl, ?_, accOK_update, fun _ => rfl,
    fun _ _ => rfl, accOK_runUpdates⟩
  intro c s h
  rcases h with h | h
  · rw [h]
  · rw [h]; rfl

/-- Witness for C10: the invariant holds after a call on the resting
concrete ball (acceleration {0, 0}). -/
theorem c10_acceleration_invariant_witness :
    accOK cW ((update cW 1 0 restBall).ball) :=
  c10_acceleration_invariant.2.2.1 cW 1 0 restBall (Or.inr rfl)

end CannonWarfare
